import Mathlib

/-!
Verification development for the flatcitybuf Python decoding layer.

The source under scrutiny is `py/src/column_meta.py` (the `ColumnMeta`
value object and its `from_byte_buffer` classmethod) and `py/src/header.py`
(the `HeaderMeta` value object).  Both decode records out of a FlatBuffers
serialization.  The generated FlatBuffers accessor layer
(`py.src.FlatCityBuf.*`: `GetRootAsColumnMeta`, the field accessors and the
`ColumnType` name table) and the dataset-header decoder are part of the
repository but are not among the supplied sources; where a definition below
embeds one of those, its doc comment starts with `Modelled from the spec:`
and the corresponding specification section is followed.  Everything else
is a direct translation of the Python in `column_meta.py` / `header.py`.
-/

/-- Decidable equality on `Except`, so that concrete decodes can be
checked by `decide`. -/
instance {ε α : Type} [DecidableEq ε] [DecidableEq α] :
    DecidableEq (Except ε α) := fun a b =>
  match a, b with
  | .ok x, .ok y =>
    if h : x = y then .isTrue (by rw [h])
    else .isFalse (fun hc => h (Except.ok.inj hc))
  | .error x, .error y =>
    if h : x = y then .isTrue (by rw [h])
    else .isFalse (fun hc => h (Except.error.inj hc))
  | .ok _, .error _ => .isFalse (fun hc => Except.noConfusion hc)
  | .error _, .ok _ => .isFalse (fun hc => Except.noConfusion hc)

namespace FlatCityBuf

/-- Error taxonomy of the decoding layer (spec section 7): a buffer whose
root cannot be resolved, an enumeration field holding an unknown wire
value, and a string field holding bytes that are not valid UTF-8. -/
inductive DecodeError where
  | malformedBuffer
  | invalidEnum (value : Nat)
  | invalidEncoding
  deriving Repr, DecidableEq

/-- Kind test used to state that a surfaced error is an InvalidEnum. -/
def DecodeError.isInvalidEnum : DecodeError → Bool
  | .invalidEnum _ => true
  | _ => false

/-- Kind test used to state that a surfaced error is an InvalidEncoding. -/
def DecodeError.isInvalidEncoding : DecodeError → Bool
  | .invalidEncoding => true
  | _ => false

/-- Printable name of an error kind, as it appears in surfaced paths. -/
def DecodeError.kindName : DecodeError → String
  | .malformedBuffer => "MalformedBuffer"
  | .invalidEnum _ => "InvalidEnum"
  | .invalidEncoding => "InvalidEncoding"

/-- Ways a serialized buffer can fail root resolution: a zero-length (or
too short) buffer, or an internal offset pointing outside the buffer. -/
inductive MalformReason where
  | zeroLength
  | offsetOutOfBounds (off len : Nat)
  deriving Repr, DecidableEq

/-- Modelled from the spec: a byte buffer as seen through the FlatBuffers
root-resolution step of the generated `GetRootAs*` entry points (generated
code, not among the supplied sources).  A buffer either fails root
resolution for one of the reasons in `MalformReason` or exposes a root
record of type `α`. -/
inductive FBBuffer (α : Type) where
  | malformed (r : MalformReason)
  | wellFormed (root : α)
  deriving Repr, DecidableEq

/-- Modelled from the spec: root resolution (`GetRootAs*`).  A malformed or
truncated buffer surfaces `MalformedBuffer`; otherwise the root record is
exposed (spec sections 4.1 and 7). -/
def GetRootAs {α : Type} : FBBuffer α → Except DecodeError α
  | .malformed _ => .error .malformedBuffer
  | .wellFormed t => .ok t

/-- Modelled from the spec: the closed column-type enumeration of the
external FlatCityBuf schema (the generated `ColumnType` module is not among
the supplied sources; the member list follows the schema's fixed set). -/
inductive ColumnType where
  | byte | ubyte | boolean | short | ushort | int | uint | long | ulong
  | float | double | string | json | dateTime | binary
  deriving Repr, DecidableEq

/-- Wire value to enumeration member, `none` on an unknown value. -/
def ColumnType.ofCode : Nat → Option ColumnType
  | 0 => some .byte
  | 1 => some .ubyte
  | 2 => some .boolean
  | 3 => some .short
  | 4 => some .ushort
  | 5 => some .int
  | 6 => some .uint
  | 7 => some .long
  | 8 => some .ulong
  | 9 => some .float
  | 10 => some .double
  | 11 => some .string
  | 12 => some .json
  | 13 => some .dateTime
  | 14 => some .binary
  | _ => none

/-- Member to its declared name string. -/
def ColumnType.nameOf : ColumnType → String
  | .byte => "Byte"
  | .ubyte => "UByte"
  | .boolean => "Bool"
  | .short => "Short"
  | .ushort => "UShort"
  | .int => "Int"
  | .uint => "UInt"
  | .long => "Long"
  | .ulong => "ULong"
  | .float => "Float"
  | .double => "Double"
  | .string => "String"
  | .json => "Json"
  | .dateTime => "DateTime"
  | .binary => "Binary"

/-- Modelled from the spec: the generated enumeration name table invoked as
`ColumnType.Name(type_enum)` in `column_meta.py` (runtime value-to-name
lookup over the closed set; generated code, not among the supplied
sources).  A known wire value yields the member's name string; an
unrecognized value is a decode error, `InvalidEnum`, never a silent
default (spec sections 3, 4.1 and 7). -/
def ColumnType.Name (v : Nat) : Except DecodeError String :=
  match ColumnType.ofCode v with
  | some c => .ok (ColumnType.nameOf c)
  | none => .error (.invalidEnum v)

/-- Dynamic value held by the `type` attribute of a `ColumnMeta` object.
The constructor's annotation in `column_meta.py` admits a `ColumnType`
member, while `from_byte_buffer` supplies the string produced by
`ColumnType.Name`; this union captures both so theorems can state which of
the two the decoder actually produces. -/
inductive TypeField where
  | name (s : String)
  | member (c : ColumnType)
  deriving Repr, DecidableEq

/-- True when the held value is an enumeration member (not a name string). -/
def TypeField.isMember : TypeField → Bool
  | .member _ => true
  | .name _ => false

/-- Continuation-byte test for UTF-8 (second to fourth byte of a
multi-byte sequence). -/
def isCont (b : Nat) : Bool := 0x80 ≤ b && b ≤ 0xBF

/-- Strict UTF-8 decoding of a byte list, as performed by Python's
`bytes.decode("utf-8")`: rejects overlong encodings, surrogate code
points, code points above U+10FFFF, stray or missing continuation bytes.
Returns `none` exactly on invalid input. -/
def utf8DecodeBytes? : List Nat → Option (List Char)
  | [] => some []
  | b0 :: rest =>
    if b0 ≤ 0x7F then
      (utf8DecodeBytes? rest).map (Char.ofNat b0 :: ·)
    else if 0xC2 ≤ b0 && b0 ≤ 0xDF then
      match rest with
      | b1 :: rest2 =>
        if isCont b1 then
          (utf8DecodeBytes? rest2).map
            (Char.ofNat ((b0 - 0xC0) * 0x40 + (b1 - 0x80)) :: ·)
        else none
      | [] => none
    else if 0xE0 ≤ b0 && b0 ≤ 0xEF then
      match rest with
      | b1 :: b2 :: rest3 =>
        let lo1 := if b0 == 0xE0 then 0xA0 else 0x80
        let hi1 := if b0 == 0xED then 0x9F else 0xBF
        if lo1 ≤ b1 && b1 ≤ hi1 && isCont b2 then
          (utf8DecodeBytes? rest3).map
            (Char.ofNat ((b0 - 0xE0) * 0x1000 + (b1 - 0x80) * 0x40 + (b2 - 0x80)) :: ·)
        else none
      | _ => none
    else if 0xF0 ≤ b0 && b0 ≤ 0xF4 then
      match rest with
      | b1 :: b2 :: b3 :: rest4 =>
        let lo1 := if b0 == 0xF0 then 0x90 else 0x80
        let hi1 := if b0 == 0xF4 then 0x8F else 0xBF
        if lo1 ≤ b1 && b1 ≤ hi1 && isCont b2 && isCont b3 then
          (utf8DecodeBytes? rest4).map
            (Char.ofNat ((b0 - 0xF0) * 0x40000 + (b1 - 0x80) * 0x1000 +
              (b2 - 0x80) * 0x40 + (b3 - 0x80)) :: ·)
        else none
      | _ => none
    else none

/-- Python's `bs.decode("utf-8")` as a fallible operation: a success is the
decoded string, a failure (UnicodeDecodeError) is the `InvalidEncoding`
decode error of spec section 7. -/
def utf8Decode (bs : List Nat) : Except DecodeError String :=
  match utf8DecodeBytes? bs with
  | some cs => .ok (String.mk cs)
  | none => .error .invalidEncoding

/-- Modelled from the spec: the root column record as exposed by the
generated accessors of `py.src.FlatCityBuf.ColumnMeta` (generated code, not
among the supplied sources).  String accessors return the raw field bytes
or `None` when the field is absent ("null pointer when absent", spec
section 9); scalar and boolean accessors return the stored value with the
schema's default already applied (spec section 4.1). -/
structure FBColumnMetaTable where
  name : Option (List Nat)
  type : Nat
  title : Option (List Nat)
  description : Option (List Nat)
  precision : Int
  scale : Int
  nullable : Bool
  unique : Bool
  primary_key : Bool
  metadata : Option (List Nat)
  deriving Repr, DecidableEq

/-- Translation of the Python expression
`fb.Name().decode("utf-8") if fb.Name() else ""` in `from_byte_buffer`
(`column_meta.py` lines 56-60): an absent or empty (hence falsy) bytes
value yields the empty string, otherwise the bytes are UTF-8 decoded. -/
def decodeRequiredName (o : Option (List Nat)) : Except DecodeError String :=
  match o with
  | some bs => if bs.isEmpty then .ok "" else utf8Decode bs
  | none => .ok ""

/-- Translation of the Python expression
`fb.X().decode("utf-8") if fb.X() else None` used for title, description
and metadata in `from_byte_buffer` (`column_meta.py` lines 65-84): an
absent or empty (hence falsy) bytes value yields `none`, otherwise the
bytes are UTF-8 decoded. -/
def decodeOptionalString (o : Option (List Nat)) :
    Except DecodeError (Option String) :=
  match o with
  | some bs =>
    if bs.isEmpty then .ok none
    else
      match utf8Decode bs with
      | .ok s => .ok (some s)
      | .error e => .error e
  | none => .ok none

/-- The `ColumnMeta` value object of `column_meta.py` (constructor
parameters and attribute assignments, lines 7-29).  The `type` attribute
holds a `TypeField` because the Python attribute is dynamically typed. -/
structure ColumnMeta where
  name : String
  type : TypeField
  title : Option String
  description : Option String
  precision : Int
  scale : Int
  nullable : Bool
  unique : Bool
  primary_key : Bool
  metadata : Option String
  deriving Repr, DecidableEq

/-- Field extraction of `ColumnMeta.from_byte_buffer` after root
resolution (`column_meta.py` lines 55-97), in the source's evaluation
order: name, type, title, description, the scalar and boolean
pass-throughs, metadata; the first failing field aborts the decode with
its error. -/
def decodeColumnFields (fb : FBColumnMetaTable) : Except DecodeError ColumnMeta :=
  match decodeRequiredName fb.name with
  | .error e => .error e
  | .ok name =>
    match ColumnType.Name fb.type with
    | .error e => .error e
    | .ok typeName =>
      match decodeOptionalString fb.title with
      | .error e => .error e
      | .ok title =>
        match decodeOptionalString fb.description with
        | .error e => .error e
        | .ok description =>
          let precision := fb.precision
          let scale := fb.scale
          let nullable := fb.nullable
          let unique := fb.unique
          let primary_key := fb.primary_key
          match decodeOptionalString fb.metadata with
          | .error e => .error e
          | .ok metadata =>
            .ok { name := name, type := TypeField.name typeName,
                  title := title, description := description,
                  precision := precision, scale := scale,
                  nullable := nullable, unique := unique,
                  primary_key := primary_key, metadata := metadata }

/-- `ColumnMeta.from_byte_buffer` (`column_meta.py` lines 42-97): resolve
the root column record with `GetRootAsColumnMeta`, then extract the
fields. -/
def ColumnMeta.from_byte_buffer (bb : FBBuffer FBColumnMetaTable) :
    Except DecodeError ColumnMeta :=
  match GetRootAs bb with
  | .error e => .error e
  | .ok fb => decodeColumnFields fb

/-- Modelled from the spec: the coordinate-transform descriptor embedded in
the header, opaque to this layer and passed through undecoded (spec
section 3); its already-materialized content is carried as an abstract
tag. -/
structure Transform where
  tag : Nat
  deriving Repr, DecidableEq

/-- Modelled from the spec: the geographical-extent descriptor, opaque
pass-through (spec section 3). -/
structure GeographicalExtent where
  tag : Nat
  deriving Repr, DecidableEq

/-- Modelled from the spec: the reference-system descriptor, opaque
pass-through (spec section 3). -/
structure ReferenceSystem where
  tag : Nat
  deriving Repr, DecidableEq

/-- The `HeaderMeta` value object of `header.py` (constructor parameters
and attribute assignments, lines 10-55). -/
structure HeaderMeta where
  transform : Transform
  columns : List ColumnMeta
  features_count : Int
  index_node_size : Int
  geographical_extent : GeographicalExtent
  reference_system : ReferenceSystem
  identifier : String
  reference_date : String
  title : String
  poc_contact_name : String
  poc_contact_type : String
  poc_role : String
  poc_phone : String
  poc_email : String
  poc_website : String
  poc_address_thoroughfare_number : String
  poc_address_thoroughfare_name : String
  poc_address_locality : String
  poc_address_postcode : String
  poc_address_country : String
  attributes : List Int
  deriving Repr, DecidableEq

/-- Modelled from the spec: the root dataset-header record as exposed by
the generated accessors (generated code, not among the supplied sources).
The `columns` field is the embedded record list in declared order, to be
decoded by the column decoder; `attributes` is the embedded integer list;
the remaining fields are opaque pass-through values (transform, extent,
reference system) and provenance strings, carried already materialized
since no claim concerns their own decoding (spec sections 3 and 4.2). -/
structure FBHeaderTable where
  transform : Transform
  columns : List FBColumnMetaTable
  features_count : Int
  index_node_size : Int
  geographical_extent : GeographicalExtent
  reference_system : ReferenceSystem
  identifier : String
  reference_date : String
  title : String
  poc_contact_name : String
  poc_contact_type : String
  poc_role : String
  poc_phone : String
  poc_email : String
  poc_website : String
  poc_address_thoroughfare_number : String
  poc_address_thoroughfare_name : String
  poc_address_locality : String
  poc_address_postcode : String
  poc_address_country : String
  attributes : List Int
  deriving Repr, DecidableEq

/-- Error surfaced by the header decoder: the innermost error kind plus
the field path at which it occurred (spec sections 4.2 and 7). -/
structure HeaderError where
  path : String
  kind : DecodeError
  deriving Repr, DecidableEq

/-- Rendered form of a header error, e.g. `columns[3]: InvalidEncoding`
(spec section 4.2). -/
def HeaderError.render (e : HeaderError) : String :=
  e.path ++ ": " ++ e.kind.kindName

/-- Modelled from the spec: decoding of the embedded column list of the
header, in declared order, invoking the column decoder on each entry
(spec section 4.2).  The first failing entry aborts the whole list with
the innermost error tagged by the path `columns[k]` of the failing
element; no partial list is returned. -/
def decodeColumnList (k : Nat) :
    List FBColumnMetaTable → Except HeaderError (List ColumnMeta)
  | [] => .ok []
  | t :: ts =>
    match decodeColumnFields t with
    | .error e =>
      .error { path := "columns[" ++ toString k ++ "]", kind := e }
    | .ok c =>
      match decodeColumnList (k + 1) ts with
      | .error e => .error e
      | .ok cs => .ok (c :: cs)

/-- Modelled from the spec: the dataset-header decoder (spec section 4.2;
the decoder itself is absent from the supplied sources, which contain only
the `HeaderMeta` constructor of `header.py`).  Root resolution first, then
the embedded column list in declared order — fail-fast, all-or-nothing —
then the attribute integer list preserved as-is and the opaque
pass-through fields; any nested failure aborts the whole decode. -/
def decodeHeader (bb : FBBuffer FBHeaderTable) : Except HeaderError HeaderMeta :=
  match GetRootAs bb with
  | .error e => .error { path := "", kind := e }
  | .ok fb =>
    match decodeColumnList 0 fb.columns with
    | .error e => .error e
    | .ok cols =>
      .ok { transform := fb.transform, columns := cols,
            features_count := fb.features_count,
            index_node_size := fb.index_node_size,
            geographical_extent := fb.geographical_extent,
            reference_system := fb.reference_system,
            identifier := fb.identifier,
            reference_date := fb.reference_date,
            title := fb.title,
            poc_contact_name := fb.poc_contact_name,
            poc_contact_type := fb.poc_contact_type,
            poc_role := fb.poc_role,
            poc_phone := fb.poc_phone,
            poc_email := fb.poc_email,
            poc_website := fb.poc_website,
            poc_address_thoroughfare_number := fb.poc_address_thoroughfare_number,
            poc_address_thoroughfare_name := fb.poc_address_thoroughfare_name,
            poc_address_locality := fb.poc_address_locality,
            poc_address_postcode := fb.poc_address_postcode,
            poc_address_country := fb.poc_address_country,
            attributes := fb.attributes }

/-- A failing required-name decode always surfaces `InvalidEncoding`. -/
theorem decodeRequiredName_error {o : Option (List Nat)} {e : DecodeError}
    (h : decodeRequiredName o = .error e) : e = DecodeError.invalidEncoding := by
  unfold decodeRequiredName utf8Decode at h
  cases o with
  | none => simp at h
  | some bs =>
    by_cases hbs : bs.isEmpty
    · simp [hbs] at h
    · simp [hbs] at h
      cases hu : utf8DecodeBytes? bs with
      | some cs => rw [hu] at h; simp at h
      | none => rw [hu] at h; simp at h; exact h.symm

/-- A failing optional-string decode always surfaces `InvalidEncoding`. -/
theorem decodeOptionalString_error {o : Option (List Nat)} {e : DecodeError}
    (h : decodeOptionalString o = .error e) : e = DecodeError.invalidEncoding := by
  unfold decodeOptionalString utf8Decode at h
  cases o with
  | none => simp at h
  | some bs =>
    by_cases hbs : bs.isEmpty
    · simp [hbs] at h
    · simp [hbs] at h
      cases hu : utf8DecodeBytes? bs with
      | some cs => rw [hu] at h; simp at h
      | none => rw [hu] at h; simp at h; exact h.symm

/-- Characterization of a successful column-field extraction: every field
of the produced object is the decode of the corresponding record field,
with the scalars and booleans passed through unchanged. -/
theorem decodeColumnFields_ok {fb : FBColumnMetaTable} {cm : ColumnMeta}
    (h : decodeColumnFields fb = .ok cm) :
    decodeRequiredName fb.name = .ok cm.name ∧
    (∃ tn, ColumnType.Name fb.type = .ok tn ∧ cm.type = TypeField.name tn) ∧
    decodeOptionalString fb.title = .ok cm.title ∧
    decodeOptionalString fb.description = .ok cm.description ∧
    cm.precision = fb.precision ∧ cm.scale = fb.scale ∧
    cm.nullable = fb.nullable ∧ cm.unique = fb.unique ∧
    cm.primary_key = fb.primary_key ∧
    decodeOptionalString fb.metadata = .ok cm.metadata := by
  unfold decodeColumnFields at h
  cases h1 : decodeRequiredName fb.name with
  | error e => rw [h1] at h; simp at h
  | ok nm =>
    rw [h1] at h
    cases h2 : ColumnType.Name fb.type with
    | error e => rw [h2] at h; simp at h
    | ok tn =>
      rw [h2] at h
      cases h3 : decodeOptionalString fb.title with
      | error e => rw [h3] at h; simp at h
      | ok ti =>
        rw [h3] at h
        cases h4 : decodeOptionalString fb.description with
        | error e => rw [h4] at h; simp at h
        | ok de =>
          rw [h4] at h
          cases h5 : decodeOptionalString fb.metadata with
          | error e => rw [h5] at h; simp at h
          | ok md =>
            rw [h5] at h
            simp at h
            subst h
            refine ⟨?_, ⟨tn, ?_, rfl⟩, ?_, ?_, rfl, rfl, rfl, rfl, rfl, ?_⟩ <;>
              simp [h1, h2, h3, h4, h5]

/-- The embedded column list fails at the first malformed entry, tagging
the innermost error with the path of that entry. -/
theorem decodeColumnList_error_at {ts : List FBColumnMetaTable}
    {t : FBColumnMetaTable} {e : DecodeError} (k j : Nat)
    (ht : ts[j]? = some t) (he : decodeColumnFields t = .error e)
    (hok : ∀ i, i < j → ∀ u, ts[i]? = some u →
      (decodeColumnFields u).isOk = true) :
    decodeColumnList k ts =
      .error { path := "columns[" ++ toString (k + j) ++ "]", kind := e } := by
  induction ts generalizing k j with
  | nil => simp at ht
  | cons t0 ts ih =>
    cases j with
    | zero =>
      simp at ht
      subst ht
      simp [decodeColumnList, he]
    | succ j =>
      have h0 : (decodeColumnFields t0).isOk = true :=
        hok 0 (Nat.succ_pos j) t0 (by simp)
      cases hc : decodeColumnFields t0 with
      | error e0 => rw [hc] at h0; simp [Except.isOk, Except.toBool] at h0
      | ok c =>
        have ht' : ts[j]? = some t := by simpa using ht
        have hok' : ∀ i, i < j → ∀ u, ts[i]? = some u →
            (decodeColumnFields u).isOk = true := by
          intro i hi u hu
          exact hok (i + 1) (Nat.succ_lt_succ hi) u (by simpa using hu)
        have hrec := ih (k + 1) j ht' hok'
        have hidx : k + (j + 1) = (k + 1) + j := by omega
        rw [hidx]
        simp [decodeColumnList, hc, hrec]

/-- A successful embedded-column-list decode yields exactly one output per
input entry, at the same position. -/
theorem decodeColumnList_ok_spec {ts : List FBColumnMetaTable}
    {cs : List ColumnMeta} (k : Nat) (h : decodeColumnList k ts = .ok cs) :
    cs.length = ts.length ∧
    ∀ i : Nat, cs[i]? =
      (ts[i]?).bind (fun t => (decodeColumnFields t).toOption) := by
  induction ts generalizing k cs with
  | nil =>
    simp [decodeColumnList] at h
    subst h
    simp
  | cons t0 ts ih =>
    unfold decodeColumnList at h
    cases hc : decodeColumnFields t0 with
    | error e => rw [hc] at h; simp at h
    | ok c =>
      rw [hc] at h
      cases hrec : decodeColumnList (k + 1) ts with
      | error e => rw [hrec] at h; simp at h
      | ok cs' =>
        rw [hrec] at h
        simp at h
        subst h
        obtain ⟨hlen, hidx⟩ := ih (k + 1) hrec
        refine ⟨by simp [hlen], ?_⟩
        intro i
        cases i with
        | zero => simp [hc, Except.toOption]
        | succ i =>
          simp only [List.getElem?_cons_succ]
          exact hidx i

/-- Column record with every string field absent and the known type tag 5
(`Int`), sentinel `-1` precision and scale. -/
def fbAllAbsent : FBColumnMetaTable :=
  { name := none, type := 5, title := none, description := none,
    precision := -1, scale := -1, nullable := true, unique := false,
    primary_key := false, metadata := none }

/-- Column record carrying the name bytes of `"x"` and type tag 5. -/
def fbIntCol : FBColumnMetaTable := { fbAllAbsent with name := some [0x78] }

/-- The object `fbIntCol` decodes to. -/
def cmIntCol : ColumnMeta :=
  { name := "x", type := TypeField.name "Int", title := none,
    description := none, precision := -1, scale := -1, nullable := true,
    unique := false, primary_key := false, metadata := none }

/-- The object `fbAllAbsent` decodes to. -/
def cmAllAbsent : ColumnMeta := { cmIntCol with name := "" }

/-- Column record with an unknown type tag 99 and no string fields. -/
def fbUnknownEnum : FBColumnMetaTable := { fbAllAbsent with type := 99 }

/-- Column record whose name bytes are not valid UTF-8 and whose type tag
99 is unknown: two faults at once. -/
def fbBadNameBadEnum : FBColumnMetaTable :=
  { fbAllAbsent with name := some [0xFF], type := 99 }

/-- Column record with a known type tag and invalid-UTF-8 title bytes. -/
def fbBadTitle : FBColumnMetaTable := { fbAllAbsent with title := some [0xFF] }

/-- Column record with invalid-UTF-8 title bytes and an unknown type tag
99: two faults at once. -/
def fbBadTitleBadEnum : FBColumnMetaTable := { fbBadTitle with type := 99 }

/-- C2 (counterexample).  A record whose type tag 99 is outside the known
enumeration but whose name bytes are also invalid UTF-8 does not fail with
`InvalidEnum`: the name field is decoded first (`column_meta.py` lines
56-60 precede lines 61-64), so the surfaced error is `InvalidEncoding`. -/
theorem unknownEnum_masked_by_name_counterexample :
    ColumnType.ofCode fbBadNameBadEnum.type = none ∧
    ColumnMeta.from_byte_buffer (.wellFormed fbBadNameBadEnum) =
      .error DecodeError.invalidEncoding ∧
    DecodeError.invalidEncoding.isInvalidEnum = false :=
  ⟨rfl, by decide, rfl⟩

/-- C2 (amended).  For every well-formed column record whose type tag is
outside the known enumeration and whose name field decodes (absent, empty
or valid UTF-8), `from_byte_buffer` fails with `InvalidEnum` carrying the
unknown wire value; it never silently maps the unknown value to a default
type. -/
theorem from_byte_buffer_unknown_enum_invalidEnum {fb : FBColumnMetaTable}
    (htype : ColumnType.ofCode fb.type = none)
    (hname : (decodeRequiredName fb.name).isOk = true) :
    ColumnMeta.from_byte_buffer (.wellFormed fb) =
      .error (DecodeError.invalidEnum fb.type) := by
  cases h1 : decodeRequiredName fb.name with
  | error e => rw [h1] at hname; simp [Except.isOk, Except.toBool] at hname
  | ok nm =>
    have h2 : ColumnType.Name fb.type = .error (.invalidEnum fb.type) := by
      unfold ColumnType.Name
      rw [htype]
    show decodeColumnFields fb = _
    unfold decodeColumnFields
    rw [h1, h2]

/-- C2 (witness).  The amended statement at the concrete record with type
tag 99 and no name field. -/
theorem from_byte_buffer_unknown_enum_invalidEnum_witness :
    ColumnType.ofCode fbUnknownEnum.type = none ∧
    (decodeRequiredName fbUnknownEnum.name).isOk = true ∧
    ColumnMeta.from_byte_buffer (.wellFormed fbUnknownEnum) =
      .error (DecodeError.invalidEnum 99) :=
  ⟨rfl, rfl, from_byte_buffer_unknown_enum_invalidEnum (by decide) (by decide)⟩

/-- C3 (code evaluation).  At a record with known type tag 5,
`from_byte_buffer` stores the string name `"Int"` produced by
`ColumnType.Name` in the `type` attribute — a name string, not the
enumeration member the constructor's `type: ColumnType` annotation
declares. -/
theorem from_byte_buffer_stores_name_string :
    ColumnMeta.from_byte_buffer (.wellFormed fbIntCol) = .ok cmIntCol ∧
    cmIntCol.type = TypeField.name (ColumnType.nameOf ColumnType.int) ∧
    cmIntCol.type.isMember = false :=
  ⟨by decide, rfl, rfl⟩

/-- C6 (counterexample).  A record whose title bytes are invalid UTF-8 but
whose type tag 99 is also unknown does not fail with `InvalidEncoding`:
the type field is decoded first (`column_meta.py` lines 61-64 precede
lines 65-69), so the surfaced error is `InvalidEnum`. -/
theorem badUtf8_masked_by_enum_counterexample :
    fbBadTitleBadEnum.title = some [0xFF] ∧
    utf8DecodeBytes? [0xFF] = none ∧
    ColumnMeta.from_byte_buffer (.wellFormed fbBadTitleBadEnum) =
      .error (DecodeError.invalidEnum 99) ∧
    (DecodeError.invalidEnum 99).isInvalidEncoding = false :=
  ⟨rfl, rfl, by decide, rfl⟩

/-- C6 (amended).  For every well-formed column record whose type tag is
inside the known enumeration, if an optional string field (title,
description or metadata) is present with bytes that are not valid UTF-8,
`from_byte_buffer` fails with `InvalidEncoding`. -/
theorem from_byte_buffer_bad_utf8_invalidEncoding {fb : FBColumnMetaTable}
    {bs : List Nat} (htype : (ColumnType.Name fb.type).isOk = true)
    (hfield : fb.title = some bs ∨ fb.description = some bs ∨
      fb.metadata = some bs)
    (hbad : utf8DecodeBytes? bs = none) :
    ColumnMeta.from_byte_buffer (.wellFormed fb) =
      .error DecodeError.invalidEncoding := by
  have hfail : decodeOptionalString (some bs) = .error DecodeError.invalidEncoding := by
    cases bs with
    | nil => exact absurd hbad (by decide)
    | cons b l => simp [decodeOptionalString, utf8Decode, hbad]
  show decodeColumnFields fb = _
  cases h1 : decodeRequiredName fb.name with
  | error e =>
    have := decodeRequiredName_error h1
    subst this
    unfold decodeColumnFields
    rw [h1]
  | ok nm =>
    cases h2 : ColumnType.Name fb.type with
    | error e => rw [h2] at htype; simp [Except.isOk, Except.toBool] at htype
    | ok tn =>
      rcases hfield with hf | hf | hf
      · unfold decodeColumnFields
        rw [h1, h2, hf, hfail]
      · cases h3 : decodeOptionalString fb.title with
        | error e =>
          have := decodeOptionalString_error h3
          subst this
          unfold decodeColumnFields
          rw [h1, h2, h3]
        | ok ti =>
          unfold decodeColumnFields
          rw [h1, h2, h3, hf, hfail]
      · cases h3 : decodeOptionalString fb.title with
        | error e =>
          have := decodeOptionalString_error h3
          subst this
          unfold decodeColumnFields
          rw [h1, h2, h3]
        | ok ti =>
          cases h4 : decodeOptionalString fb.description with
          | error e =>
            have := decodeOptionalString_error h4
            subst this
            unfold decodeColumnFields
            rw [h1, h2, h3, h4]
          | ok de =>
            unfold decodeColumnFields
            rw [h1, h2, h3, h4, hf, hfail]

/-- C6 (witness).  The amended statement at the concrete record with type
tag 5 and title bytes `[0xFF]`. -/
theorem from_byte_buffer_bad_utf8_invalidEncoding_witness :
    (ColumnType.Name fbBadTitle.type).isOk = true ∧
    fbBadTitle.title = some [0xFF] ∧
    utf8DecodeBytes? [0xFF] = none ∧
    ColumnMeta.from_byte_buffer (.wellFormed fbBadTitle) =
      .error DecodeError.invalidEncoding :=
  ⟨rfl, rfl, rfl,
   from_byte_buffer_bad_utf8_invalidEncoding (by decide) (Or.inl rfl) rfl⟩

/-- C7.  Both decoders fail with `MalformedBuffer` on every buffer whose
root cannot be resolved (zero-length, or an internal offset outside the
buffer), aborting that record's decode with no partial result. -/
theorem decoders_malformed_buffer (r : MalformReason) :
    ColumnMeta.from_byte_buffer (.malformed r) =
      .error DecodeError.malformedBuffer ∧
    decodeHeader (.malformed r) =
      .error { path := "", kind := DecodeError.malformedBuffer } :=
  ⟨rfl, rfl⟩

/-- C7 (witness).  The statement at a zero-length buffer and at a buffer
with an internal offset 8 beyond its length 4. -/
theorem decoders_malformed_buffer_witness :
    ColumnMeta.from_byte_buffer (.malformed .zeroLength) =
      .error DecodeError.malformedBuffer ∧
    decodeHeader (.malformed (.offsetOutOfBounds 8 4)) =
      .error { path := "", kind := DecodeError.malformedBuffer } :=
  ⟨(decoders_malformed_buffer .zeroLength).1,
   (decoders_malformed_buffer (.offsetOutOfBounds 8 4)).2⟩

/-- C8.  On every successful decode the precision and scale attributes are
the record's stored signed integers unchanged — including the sentinel
`-1`, which is passed through, never reinterpreted as an absent value. -/
theorem from_byte_buffer_precision_scale_passthrough
    {fb : FBColumnMetaTable} {cm : ColumnMeta}
    (h : ColumnMeta.from_byte_buffer (.wellFormed fb) = .ok cm) :
    cm.precision = fb.precision ∧ cm.scale = fb.scale := by
  have h' : decodeColumnFields fb = .ok cm := by
    simpa [ColumnMeta.from_byte_buffer, GetRootAs] using h
  obtain ⟨-, -, -, -, hp, hs, -, -, -, -⟩ := decodeColumnFields_ok h'
  exact ⟨hp, hs⟩

/-- C8 (witness).  The statement at the concrete record whose precision
and scale are the sentinel `-1`. -/
theorem from_byte_buffer_precision_scale_passthrough_witness :
    ColumnMeta.from_byte_buffer (.wellFormed fbIntCol) = .ok cmIntCol ∧
    fbIntCol.precision = -1 ∧ fbIntCol.scale = -1 ∧
    cmIntCol.precision = fbIntCol.precision ∧
    cmIntCol.scale = fbIntCol.scale :=
  ⟨by decide, rfl, rfl,
   (from_byte_buffer_precision_scale_passthrough (by decide)).1,
   (from_byte_buffer_precision_scale_passthrough (by decide)).2⟩

/-- C4.  On every successful decode, an absent title, description or
metadata field yields `none` (never the empty string), and an absent name
field yields the empty string (never an absent value). -/
theorem from_byte_buffer_absent_field_defaults
    {fb : FBColumnMetaTable} {cm : ColumnMeta}
    (h : ColumnMeta.from_byte_buffer (.wellFormed fb) = .ok cm) :
    (fb.title = none → cm.title = none) ∧
    (fb.description = none → cm.description = none) ∧
    (fb.metadata = none → cm.metadata = none) ∧
    (fb.name = none → cm.name = "") := by
  have h' : decodeColumnFields fb = .ok cm := by
    simpa [ColumnMeta.from_byte_buffer, GetRootAs] using h
  obtain ⟨hn, -, ht, hd, -, -, -, -, -, hm⟩ := decodeColumnFields_ok h'
  refine ⟨?_, ?_, ?_, ?_⟩ <;> intro habs
  · rw [habs] at ht
    simpa [decodeOptionalString] using ht.symm
  · rw [habs] at hd
    simpa [decodeOptionalString] using hd.symm
  · rw [habs] at hm
    simpa [decodeOptionalString] using hm.symm
  · rw [habs] at hn
    simpa [decodeRequiredName] using hn.symm

/-- C4 (witness).  The statement at the concrete record with every string
field absent. -/
theorem from_byte_buffer_absent_field_defaults_witness :
    ColumnMeta.from_byte_buffer (.wellFormed fbAllAbsent) = .ok cmAllAbsent ∧
    cmAllAbsent.title = none ∧ cmAllAbsent.description = none ∧
    cmAllAbsent.metadata = none ∧ cmAllAbsent.name = "" := by
  have h : ColumnMeta.from_byte_buffer (.wellFormed fbAllAbsent) =
      .ok cmAllAbsent := by decide
  have hthm := from_byte_buffer_absent_field_defaults h
  exact ⟨h, hthm.1 rfl, hthm.2.1 rfl, hthm.2.2.1 rfl, hthm.2.2.2 rfl⟩

/-- C9.  Decoding is deterministic: two calls on equal buffers return the
same result, and two successful results agree field-for-field; the
decoder is a pure function of the buffer value, which it never mutates. -/
theorem from_byte_buffer_deterministic (b1 b2 : FBBuffer FBColumnMetaTable)
    (h : b1 = b2) {cm1 cm2 : ColumnMeta}
    (h1 : ColumnMeta.from_byte_buffer b1 = .ok cm1)
    (h2 : ColumnMeta.from_byte_buffer b2 = .ok cm2) :
    ColumnMeta.from_byte_buffer b1 = ColumnMeta.from_byte_buffer b2 ∧
    cm1.name = cm2.name ∧ cm1.type = cm2.type ∧ cm1.title = cm2.title ∧
    cm1.description = cm2.description ∧ cm1.precision = cm2.precision ∧
    cm1.scale = cm2.scale ∧ cm1.nullable = cm2.nullable ∧
    cm1.unique = cm2.unique ∧ cm1.primary_key = cm2.primary_key ∧
    cm1.metadata = cm2.metadata := by
  subst h
  rw [h1] at h2
  have hcm : cm1 = cm2 := Except.ok.inj h2
  subst hcm
  exact ⟨rfl, rfl, rfl, rfl, rfl, rfl, rfl, rfl, rfl, rfl, rfl⟩

/-- C9 (witness).  The statement at two equal concrete buffers. -/
theorem from_byte_buffer_deterministic_witness :
    ColumnMeta.from_byte_buffer (.wellFormed fbIntCol) =
      ColumnMeta.from_byte_buffer (.wellFormed fbIntCol) ∧
    cmIntCol.name = cmIntCol.name := by
  have h : ColumnMeta.from_byte_buffer (.wellFormed fbIntCol) =
      .ok cmIntCol := by decide
  have hthm := from_byte_buffer_deterministic
    (.wellFormed fbIntCol) (.wellFormed fbIntCol) rfl h h
  exact ⟨hthm.1, hthm.2.1⟩

/-- C10.  A present but zero-length optional string field decodes exactly
as an absent one — presence is tested by the truthiness of the returned
bytes, so the two records are indistinguishable at the public interface —
and on success such a field yields `none`. -/
theorem from_byte_buffer_empty_optional_indistinguishable
    (fb : FBColumnMetaTable) :
    ColumnMeta.from_byte_buffer (.wellFormed { fb with title := some [] }) =
      ColumnMeta.from_byte_buffer (.wellFormed { fb with title := none }) ∧
    ColumnMeta.from_byte_buffer
        (.wellFormed { fb with description := some [] }) =
      ColumnMeta.from_byte_buffer (.wellFormed { fb with description := none }) ∧
    ColumnMeta.from_byte_buffer (.wellFormed { fb with metadata := some [] }) =
      ColumnMeta.from_byte_buffer (.wellFormed { fb with metadata := none }) ∧
    (∀ cm, ColumnMeta.from_byte_buffer
        (.wellFormed { fb with title := some [] }) = .ok cm →
      cm.title = none) ∧
    (∀ cm, ColumnMeta.from_byte_buffer
        (.wellFormed { fb with description := some [] }) = .ok cm →
      cm.description = none) ∧
    (∀ cm, ColumnMeta.from_byte_buffer
        (.wellFormed { fb with metadata := some [] }) = .ok cm →
      cm.metadata = none) := by
  obtain ⟨n, ty, ti, de, pr, sc, nu, un, pk, md⟩ := fb
  refine ⟨?_, ?_, ?_, ?_, ?_, ?_⟩
  · show decodeColumnFields _ = decodeColumnFields _
    unfold decodeColumnFields
    simp [decodeOptionalString]
  · show decodeColumnFields _ = decodeColumnFields _
    unfold decodeColumnFields
    simp [decodeOptionalString]
  · show decodeColumnFields _ = decodeColumnFields _
    unfold decodeColumnFields
    simp [decodeOptionalString]
  · intro cm h
    have h' : decodeColumnFields
        { name := n, type := ty, title := some [], description := de,
          precision := pr, scale := sc, nullable := nu, unique := un,
          primary_key := pk, metadata := md } = .ok cm := by
      simpa [ColumnMeta.from_byte_buffer, GetRootAs] using h
    obtain ⟨-, -, ht, -, -, -, -, -, -, -⟩ := decodeColumnFields_ok h'
    simpa [decodeOptionalString] using ht.symm
  · intro cm h
    have h' : decodeColumnFields
        { name := n, type := ty, title := ti, description := some [],
          precision := pr, scale := sc, nullable := nu, unique := un,
          primary_key := pk, metadata := md } = .ok cm := by
      simpa [ColumnMeta.from_byte_buffer, GetRootAs] using h
    obtain ⟨-, -, -, hd, -, -, -, -, -, -⟩ := decodeColumnFields_ok h'
    simpa [decodeOptionalString] using hd.symm
  · intro cm h
    have h' : decodeColumnFields
        { name := n, type := ty, title := ti, description := de,
          precision := pr, scale := sc, nullable := nu, unique := un,
          primary_key := pk, metadata := some [] } = .ok cm := by
      simpa [ColumnMeta.from_byte_buffer, GetRootAs] using h
    obtain ⟨-, -, -, -, -, -, -, -, -, hm⟩ := decodeColumnFields_ok h'
    simpa [decodeOptionalString] using hm.symm

/-- C10 (witness).  The statement at a concrete record: an empty title
decodes identically to an absent one, and to `none`. -/
theorem from_byte_buffer_empty_optional_indistinguishable_witness :
    ColumnMeta.from_byte_buffer (.wellFormed { fbIntCol with title := some [] }) =
      ColumnMeta.from_byte_buffer (.wellFormed { fbIntCol with title := none }) ∧
    ColumnMeta.from_byte_buffer (.wellFormed { fbIntCol with title := some [] }) =
      .ok cmIntCol ∧
    cmIntCol.title = none := by
  have h : ColumnMeta.from_byte_buffer
      (.wellFormed { fbIntCol with title := some [] }) = .ok cmIntCol := by
    decide
  have hthm := from_byte_buffer_empty_optional_indistinguishable fbIntCol
  exact ⟨hthm.1, h, hthm.2.2.2.1 cmIntCol h⟩

/-- Header table with no columns and no attributes, used as the base of
the concrete header examples. -/
def hdrBase : FBHeaderTable :=
  { transform := { tag := 0 }, columns := [], features_count := 10,
    index_node_size := 16, geographical_extent := { tag := 0 },
    reference_system := { tag := 0 }, identifier := "ds",
    reference_date := "2024-01-01", title := "dataset",
    poc_contact_name := "", poc_contact_type := "", poc_role := "",
    poc_phone := "", poc_email := "", poc_website := "",
    poc_address_thoroughfare_number := "", poc_address_thoroughfare_name := "",
    poc_address_locality := "", poc_address_postcode := "",
    poc_address_country := "", attributes := [] }

/-- Header whose second column record has invalid-UTF-8 title bytes. -/
def hdrBadCol : FBHeaderTable := { hdrBase with columns := [fbIntCol, fbBadTitle] }

/-- Column records named `"A"`, `"B"`, `"C"`. -/
def colA : FBColumnMetaTable := { fbAllAbsent with name := some [0x41] }

/-- Column record named `"B"`. -/
def colB : FBColumnMetaTable := { fbAllAbsent with name := some [0x42] }

/-- Column record named `"C"`. -/
def colC : FBColumnMetaTable := { fbAllAbsent with name := some [0x43] }

/-- Header with columns in the order A, B, C and a duplicated attribute
index list. -/
def hdrOrder : FBHeaderTable :=
  { hdrBase with columns := [colA, colB, colC], attributes := [2, 0, 2] }

/-- The object `hdrOrder` decodes to. -/
def hmOrder : HeaderMeta :=
  { transform := { tag := 0 },
    columns := [{ cmAllAbsent with name := "A" },
                { cmAllAbsent with name := "B" },
                { cmAllAbsent with name := "C" }],
    features_count := 10, index_node_size := 16,
    geographical_extent := { tag := 0 }, reference_system := { tag := 0 },
    identifier := "ds", reference_date := "2024-01-01", title := "dataset",
    poc_contact_name := "", poc_contact_type := "", poc_role := "",
    poc_phone := "", poc_email := "", poc_website := "",
    poc_address_thoroughfare_number := "", poc_address_thoroughfare_name := "",
    poc_address_locality := "", poc_address_postcode := "",
    poc_address_country := "", attributes := [2, 0, 2] }

/-- Reduction of the header decoder on a well-formed buffer: root
resolution succeeds and the result is determined by the embedded column
list decode. -/
theorem decodeHeader_wellFormed (fb : FBHeaderTable) :
    decodeHeader (.wellFormed fb) =
      match decodeColumnList 0 fb.columns with
      | .error e => .error e
      | .ok cols =>
        .ok { transform := fb.transform, columns := cols,
              features_count := fb.features_count,
              index_node_size := fb.index_node_size,
              geographical_extent := fb.geographical_extent,
              reference_system := fb.reference_system,
              identifier := fb.identifier,
              reference_date := fb.reference_date,
              title := fb.title,
              poc_contact_name := fb.poc_contact_name,
              poc_contact_type := fb.poc_contact_type,
              poc_role := fb.poc_role,
              poc_phone := fb.poc_phone,
              poc_email := fb.poc_email,
              poc_website := fb.poc_website,
              poc_address_thoroughfare_number :=
                fb.poc_address_thoroughfare_number,
              poc_address_thoroughfare_name :=
                fb.poc_address_thoroughfare_name,
              poc_address_locality := fb.poc_address_locality,
              poc_address_postcode := fb.poc_address_postcode,
              poc_address_country := fb.poc_address_country,
              attributes := fb.attributes } := rfl

/-- C1.  When the embedded column at index `k` is the first malformed
entry, the whole header decode fails — no partial `HeaderMeta` — and the
surfaced error carries the innermost error kind together with the field
path `columns[k]`, rendering as `columns[k]: <kind>`. -/
theorem decodeHeader_malformed_column_path {hdr : FBHeaderTable}
    {t : FBColumnMetaTable} {e : DecodeError} (k : Nat)
    (ht : hdr.columns[k]? = some t)
    (he : decodeColumnFields t = .error e)
    (hok : ∀ i, i < k → ∀ u, hdr.columns[i]? = some u →
      (decodeColumnFields u).isOk = true) :
    decodeHeader (.wellFormed hdr) =
      .error { path := "columns[" ++ toString k ++ "]", kind := e } ∧
    HeaderError.render { path := "columns[" ++ toString k ++ "]", kind := e } =
      "columns[" ++ toString k ++ "]" ++ ": " ++ DecodeError.kindName e := by
  have hlist := decodeColumnList_error_at 0 k ht he hok
  rw [Nat.zero_add] at hlist
  constructor
  · rw [decodeHeader_wellFormed, hlist]
  · rfl

/-- C1 (witness).  The statement at the concrete header whose column at
index 1 has invalid-UTF-8 title bytes; the error path renders as
`columns[1]: InvalidEncoding`. -/
theorem decodeHeader_malformed_column_path_witness :
    hdrBadCol.columns[1]? = some fbBadTitle ∧
    decodeColumnFields fbBadTitle = .error DecodeError.invalidEncoding ∧
    decodeHeader (.wellFormed hdrBadCol) =
      .error { path := "columns[" ++ toString 1 ++ "]",
               kind := DecodeError.invalidEncoding } ∧
    HeaderError.render { path := "columns[1]",
                         kind := DecodeError.invalidEncoding } =
      "columns[1]: InvalidEncoding" := by
  refine ⟨by decide, by decide, ?_, by decide⟩
  refine (@decodeHeader_malformed_column_path hdrBadCol fbBadTitle
    DecodeError.invalidEncoding 1 (by decide) (by decide) ?_).1
  intro i hi u hu
  have hi0 : i = 0 := by omega
  subst hi0
  have hu' : u = fbIntCol := by
    have : hdrBadCol.columns[0]? = some fbIntCol := by decide
    rw [this] at hu
    exact (Option.some.inj hu).symm
  subst hu'
  decide

/-- C5.  A successful header decode preserves declaration order: the
decoded column sequence has one entry per embedded record, at the same
index, and the attribute integer list is returned exactly as stored —
order and duplicates preserved, no deduplication, no sorting. -/
theorem decodeHeader_preserves_order {hdr : FBHeaderTable} {hm : HeaderMeta}
    (h : decodeHeader (.wellFormed hdr) = .ok hm) :
    hm.columns.length = hdr.columns.length ∧
    (∀ i : Nat, hm.columns[i]? =
      (hdr.columns[i]?).bind (fun t => (decodeColumnFields t).toOption)) ∧
    hm.attributes = hdr.attributes := by
  rw [decodeHeader_wellFormed] at h
  cases hc : decodeColumnList 0 hdr.columns with
  | error e => rw [hc] at h; simp at h
  | ok cols =>
    rw [hc] at h
    have hhm := Except.ok.inj h
    subst hhm
    obtain ⟨hlen, hidx⟩ := decodeColumnList_ok_spec 0 hc
    exact ⟨hlen, hidx, rfl⟩

/-- C5 (witness).  The statement at the concrete header with columns
A, B, C and the duplicated attribute list `[2, 0, 2]`. -/
theorem decodeHeader_preserves_order_witness :
    decodeHeader (.wellFormed hdrOrder) = .ok hmOrder ∧
    hmOrder.columns.length = hdrOrder.columns.length ∧
    hmOrder.attributes = hdrOrder.attributes ∧
    hmOrder.attributes = [2, 0, 2] ∧
    (hmOrder.columns[0]?).map (fun c => c.name) = some "A" ∧
    (hmOrder.columns[1]?).map (fun c => c.name) = some "B" ∧
    (hmOrder.columns[2]?).map (fun c => c.name) = some "C" := by
  have h : decodeHeader (.wellFormed hdrOrder) = .ok hmOrder := by decide
  have hthm := decodeHeader_preserves_order h
  exact ⟨h, hthm.1, hthm.2.2, by decide, by decide, by decide, by decide⟩

end FlatCityBuf
